import Mathlib

/-!
Verification of the entity-resolution and synchronization core of the
FUCKSPOTIFY repository (files `backend/sync.py` and `backend/cache.py`)
against its natural-language specification.

The Python code is shallowly embedded: strings are `List Char`, Python
`datetime` instants are integers counting days (the only time arithmetic
in the code is day-granular), the SQLite table of match failures is an
association list keyed by track id, and the in-memory match cache is an
association list together with its three statistics counters.  Python
truthiness of strings (`""` falsy), of `None`, and of the integer `0` is
modelled explicitly where the source relies on it.
-/

namespace SpotifyTidal

/-! ## String helpers (sync.py, lines 18-22) -/

/-- Python `str.strip` whitespace class restricted to the characters that
occur in this code base's data (space, tab, newline, carriage return). -/
def isSpaceChar (c : Char) : Bool :=
  c == ' ' || c == '\t' || c == '\n' || c == '\r'

/-- Leading-whitespace removal, the first half of Python `str.strip`. -/
def lstrip (s : List Char) : List Char := s.dropWhile isSpaceChar

/-- Trailing-whitespace removal, the second half of Python `str.strip`. -/
def rstrip (s : List Char) : List Char := (s.reverse.dropWhile isSpaceChar).reverse

/-- Python `str.strip`: drop leading and trailing whitespace. -/
def strip (s : List Char) : List Char := rstrip (lstrip s)

/-- Python `s.split(c)[0]`: the prefix of `s` before the first occurrence
of the single character `c` (the whole string if `c` does not occur). -/
def splitHead (c : Char) (s : List Char) : List Char :=
  s.takeWhile (fun a => a != c)

/-- Python `s.split(pat)[0]` for a multi-character separator `pat`: the
prefix of `s` before the first occurrence of the substring `pat`. -/
def takeUntilSub (pat : List Char) : List Char → List Char
  | [] => []
  | c :: rest =>
    if pat.isPrefixOf (c :: rest) then [] else c :: takeUntilSub pat rest

/-- Python `pat in s` for strings: substring containment. -/
def containsSub (pat : List Char) : List Char → Bool
  | [] => pat.isEmpty
  | c :: rest => pat.isPrefixOf (c :: rest) || containsSub pat rest

/-- Python `str.lower`, character-wise (agrees with Python on ASCII). -/
def lower (s : List Char) : List Char := s.map Char.toLower

/-- `simple` from sync.py line 21-22:
`input_string.split('-')[0].strip().split('(')[0].strip().split('[')[0].strip()`.
Note the separator is the bare character `'-'`, not `" - "`. -/
def simple (input_string : List Char) : List Char :=
  strip (splitHead '[' (strip (splitHead '(' (strip (splitHead '-' input_string)))))

/-- `normalize` from sync.py line 18-19: NFD-decompose then encode to
ASCII, ignoring non-encodable code points.  NFD is the identity on ASCII
characters, so on the ASCII data used throughout this development the
function reduces to discarding non-ASCII code points; the NFD
decomposition table for non-ASCII base letters is not modelled (no
theorem below depends on non-ASCII behaviour). -/
def normalize (s : List Char) : List Char := s.filter (fun c => c.toNat < 128)

/-! ## Data model

`SpotifyTrack` embeds the source-side track dictionaries (id, name,
artists, duration in milliseconds, ISRC); `TidalTrack` embeds
`tidalapi.Track` (integer id, name, artists, duration in seconds, ISRC,
availability flag).  A missing or `None` id/ISRC is encoded as `""`,
matching Python truthiness tests in the source. -/

structure SpotifyTrack where
  id : String
  name : List Char
  artists : List (List Char)
  duration : Int
  isrc : String
  deriving DecidableEq

structure TidalTrack where
  id : Int
  name : List Char
  artists : List (List Char)
  duration : Int
  isrc : String
  available : Bool
  deriving DecidableEq

/-! ## Match evaluator (sync.py, lines 24-52) -/

/-- `isrc_match` from sync.py line 24-26: both ISRCs truthy and equal. -/
def isrc_match (tidal_track : TidalTrack) (spotify_track : SpotifyTrack) : Bool :=
  tidal_track.isrc != "" && spotify_track.isrc != "" && tidal_track.isrc == spotify_track.isrc

/-- `duration_match` from sync.py line 28-30:
`abs(tidal.duration - spotify.duration/1000) < tolerance`.  The Python
real division by 1000 is modelled exactly by scaling both sides by 1000
over the integers. -/
def duration_match (tidal_track : TidalTrack) (spotify_track : SpotifyTrack)
    (tolerance : Int := 3) : Bool :=
  decide (|1000 * tidal_track.duration - spotify_track.duration| < 1000 * tolerance)

/-- `name_match` from sync.py line 32-34: the simplified lower-cased
source title with any `"feat."` suffix removed is a substring of the
candidate title, raw or diacritic-normalized. -/
def name_match (tidal_track : TidalTrack) (spotify_track : SpotifyTrack) : Bool :=
  let simple_spotify_track := strip (takeUntilSub "feat.".data (simple (lower spotify_track.name)))
  containsSub simple_spotify_track (lower tidal_track.name) ||
    containsSub (normalize simple_spotify_track) (normalize (lower tidal_track.name))

/-- `artist_match` from sync.py line 36-39: the sets of simplified
lower-cased artist names intersect. -/
def artist_match (tidal_track : TidalTrack) (spotify_track : SpotifyTrack) : Bool :=
  (tidal_track.artists.map (fun a => simple (lower a))).any
    (fun x => (spotify_track.artists.map (fun a => simple (lower a))).contains x)

/-- `match` from sync.py line 41-52 (named `track_matches`;
`match` is reserved in Lean): false on a falsy source id, else ISRC
short-circuit, else the duration/name/artist composite heuristic. -/
def track_matches (tidal_track : TidalTrack) (spotify_track : SpotifyTrack) : Bool :=
  if spotify_track.id == "" then false
  else if isrc_match tidal_track spotify_track then true
  else
    duration_match tidal_track spotify_track
      && name_match tidal_track spotify_track
      && artist_match tidal_track spotify_track

/-! ## Claim C1 -/

/-- Concrete tidal track for the C1 counterexample. -/
def C1tidal : TidalTrack :=
  { id := 1, name := "Other Name".data, artists := [], duration := 100,
    isrc := "USRC17607839", available := true }

/-- Concrete spotify track (falsy id) for the C1 counterexample. -/
def C1spotify : SpotifyTrack :=
  { id := "", name := "Some Name".data, artists := [], duration := 999999,
    isrc := "USRC17607839" }

/-- Claim C1, counterexample.  Both ISRC fields are non-empty and equal,
yet `track_matches` returns `false`, because the source track's id is falsy and
sync.py line 43 rejects such a pair before the ISRC comparison is ever
made.  So "track_matches returns true for every pair with equal non-empty
ISRCs" is false as stated. -/
theorem C1_counterexample :
    C1tidal.isrc ≠ "" ∧ C1spotify.isrc ≠ "" ∧ C1tidal.isrc = C1spotify.isrc ∧
      track_matches C1tidal C1spotify = false := by decide

/-- Claim C1, amended: for every pair whose ISRC fields are both
non-empty and equal *and whose source track carries a truthy id*,
`track_matches` returns true regardless of the name, duration, and artist
fields (the ISRC comparison short-circuits the composite heuristic). -/
theorem C1_isrc_short_circuits (t : TidalTrack) (s : SpotifyTrack)
    (hid : s.id ≠ "") (ht : t.isrc ≠ "") (hs : s.isrc ≠ "") (heq : t.isrc = s.isrc) :
    track_matches t s = true := by
  simp only [track_matches, isrc_match]
  rw [if_neg (by simpa using hid)]
  rw [if_pos (by simp [ht, hs, heq])]

/-- Witness for `C1_isrc_short_circuits` at a concrete pair with
differing names, durations and artists. -/
theorem C1_witness :
    track_matches { id := 2, name := "A".data, artists := ["x".data], duration := 1,
                    isrc := "QQ", available := true }
            { id := "s", name := "B".data, artists := [], duration := 500000, isrc := "QQ" }
      = true :=
  C1_isrc_short_circuits _ _ (by decide) (by decide) (by decide) rfl

/-! ## Claim C3: helper lemmas about `strip` -/

theorem dropWhile_dropWhile (p : α → Bool) (l : List α) :
    (l.dropWhile p).dropWhile p = l.dropWhile p := by
  induction l with
  | nil => rfl
  | cons c t ih =>
    by_cases h : p c
    · simp [List.dropWhile_cons, h, ih]
    · simp [List.dropWhile_cons, h]

theorem lstrip_idem (s : List Char) : lstrip (lstrip s) = lstrip s :=
  dropWhile_dropWhile isSpaceChar s

theorem rstrip_idem (s : List Char) : rstrip (rstrip s) = rstrip s := by
  unfold rstrip
  rw [List.reverse_reverse, dropWhile_dropWhile]

theorem dropWhile_head_false {p : α → Bool} {l : List α} {c : α} {t : List α}
    (h : l.dropWhile p = c :: t) : p c = false := by
  induction l with
  | nil => simp at h
  | cons a r ih =>
    rw [List.dropWhile_cons] at h
    split at h
    · exact ih h
    · cases h
      simpa using ‹¬ p c = true›

theorem rstrip_cons_of_not_space {c : Char} (h : isSpaceChar c = false) (t : List Char) :
    rstrip (c :: t) = c :: rstrip t := by
  unfold rstrip
  rw [List.reverse_cons, List.dropWhile_append]
  split
  · next he =>
    rw [List.isEmpty_iff] at he
    simp [List.dropWhile_cons, h, he]
  · simp

theorem strip_strip (s : List Char) : strip (strip s) = strip s := by
  unfold strip
  rcases hm : lstrip s with _ | ⟨c, t⟩
  · rfl
  · have hc : isSpaceChar c = false := dropWhile_head_false hm
    rw [rstrip_cons_of_not_space hc]
    show rstrip (lstrip (c :: rstrip t)) = c :: rstrip t
    unfold lstrip
    rw [List.dropWhile_cons, if_neg (by simp [hc])]
    rw [rstrip_cons_of_not_space hc, rstrip_idem]

theorem mem_lstrip {a : Char} {s : List Char} (h : a ∈ lstrip s) : a ∈ s :=
  (List.dropWhile_sublist isSpaceChar).subset h

theorem mem_rstrip {a : Char} {s : List Char} (h : a ∈ rstrip s) : a ∈ s := by
  unfold rstrip at h
  rw [List.mem_reverse] at h
  simpa using (List.dropWhile_sublist isSpaceChar).subset h

theorem mem_strip {a : Char} {s : List Char} (h : a ∈ strip s) : a ∈ s :=
  mem_lstrip (mem_rstrip h)

theorem splitHead_eq_self {c : Char} {s : List Char} (h : ∀ a ∈ s, a ≠ c) :
    splitHead c s = s := by
  unfold splitHead
  rw [List.takeWhile_eq_self_iff]
  intro x hx
  simpa using h x hx

theorem dropWhile_append_cons_of_neg {p : α → Bool} {c : α} (hc : p c = false)
    (l r : List α) : (l ++ c :: r).dropWhile p = l.dropWhile p ++ c :: r := by
  rw [List.dropWhile_append]
  split
  · next he =>
    rw [List.isEmpty_iff] at he
    rw [he, List.dropWhile_cons, if_neg (by simp [hc])]
    simp
  · rfl

theorem lstrip_append_cons {c : Char} (hc : isSpaceChar c = false) (l r : List Char) :
    lstrip (l ++ c :: r) = lstrip l ++ c :: r :=
  dropWhile_append_cons_of_neg hc l r

theorem rstrip_append_cons {c : Char} (hc : isSpaceChar c = false) (l r : List Char) :
    rstrip (l ++ c :: r) = l ++ c :: rstrip r := by
  unfold rstrip
  have h1 : (l ++ c :: r).reverse = r.reverse ++ c :: l.reverse := by simp
  rw [h1, dropWhile_append_cons_of_neg hc]
  simp

theorem strip_append_cons {c : Char} (hc : isSpaceChar c = false) (l r : List Char) :
    strip (l ++ c :: r) = lstrip l ++ c :: rstrip r := by
  unfold strip
  rw [lstrip_append_cons hc, rstrip_append_cons hc]

theorem strip_lstrip (l : List Char) : strip (lstrip l) = strip l := by
  unfold strip
  rw [lstrip_idem]

theorem splitHead_append_cons_self {c : Char} {l : List Char} (h : ∀ a ∈ l, a ≠ c)
    (r : List Char) : splitHead c (l ++ c :: r) = l := by
  unfold splitHead
  rw [List.takeWhile_append_of_pos (by intro a ha; simpa using h a ha)]
  simp [List.takeWhile_cons]

theorem splitHead_append_cons_ne {c d : Char} {l : List Char} (h : ∀ a ∈ l, a ≠ c)
    (hd : d ≠ c) (r : List Char) :
    splitHead c (l ++ d :: r) = l ++ d :: splitHead c r := by
  unfold splitHead
  rw [List.takeWhile_append_of_pos (by intro a ha; simpa using h a ha)]
  rw [List.takeWhile_cons, if_pos (by simpa using hd)]

/-! ## Claim C3 -/

/-- Modelled from the spec (section 4.1): `simplify(text)` truncates at the
first occurrence of the three-character delimiter `" - "` (space, hyphen,
space), `"("`, or `"["`, and trims whitespace.  This definition follows the
spec's words; the source function `simple` is the authority it is compared
against. -/
def simpleSpec (s : List Char) : List Char :=
  strip (splitHead '[' (strip (splitHead '(' (strip (takeUntilSub " - ".data s)))))

/-- Claim C3, counterexample.  The source splits at the bare character
`'-'` (sync.py line 22: `split('-')[0]`), not at the three-character
delimiter `" - "`: `"AC-DC"` contains no `" - "`, `"("`, or `"["` and no
surrounding whitespace, so the claim says it is returned unchanged, but
the code truncates it to `"AC"`. -/
theorem C3_counterexample :
    simple "AC-DC".data = "AC".data ∧ simpleSpec "AC-DC".data = "AC-DC".data ∧
      simple "AC-DC".data ≠ simpleSpec "AC-DC".data := by decide

/-- Claim C3, amended: `simple` truncates at the first occurrence of the
bare character `'-'` (not of the three-character delimiter `" - "`), of
`'('`, or of `'['`, trimming whitespace after each truncation.  Stated
as four conjuncts: a string containing none of the three characters is
returned unchanged apart from whitespace trimming; and for a prefix `l`
free of all three delimiters followed by `'-'`, `'('` or `'['` and an
arbitrary tail, the result is exactly `strip l` — each of the three
characters is a truncation point (so a bare hyphen, as in `"AC-DC"`,
truncates too). -/
theorem C3_simple_truncation :
    (∀ s : List Char, (∀ c ∈ s, c ≠ '-' ∧ c ≠ '(' ∧ c ≠ '[') → simple s = strip s)
    ∧ (∀ l r : List Char, (∀ c ∈ l, c ≠ '-' ∧ c ≠ '(' ∧ c ≠ '[') →
        simple (l ++ '-' :: r) = strip l)
    ∧ (∀ l r : List Char, (∀ c ∈ l, c ≠ '-' ∧ c ≠ '(' ∧ c ≠ '[') →
        simple (l ++ '(' :: r) = strip l)
    ∧ (∀ l r : List Char, (∀ c ∈ l, c ≠ '-' ∧ c ≠ '(' ∧ c ≠ '[') →
        simple (l ++ '[' :: r) = strip l) := by
  have key : ∀ s : List Char, (∀ c ∈ s, c ≠ '(' ∧ c ≠ '[') →
      strip (splitHead '[' (strip (splitHead '(' (strip s)))) = strip s := by
    intro s h
    rw [splitHead_eq_self (fun a ha => (h a (mem_strip ha)).1), strip_strip,
      splitHead_eq_self (fun a ha => (h a (mem_strip ha)).2), strip_strip]
  refine ⟨?_, ?_, ?_, ?_⟩
  · intro s h
    unfold simple
    rw [splitHead_eq_self (fun a ha => (h a ha).1)]
    exact key s (fun c hc => ⟨(h c hc).2.1, (h c hc).2.2⟩)
  · intro l r h
    unfold simple
    rw [splitHead_append_cons_self (fun a ha => (h a ha).1) r]
    exact key l (fun c hc => ⟨(h c hc).2.1, (h c hc).2.2⟩)
  · intro l r h
    unfold simple
    rw [splitHead_append_cons_ne (fun a ha => (h a ha).1) (by decide) r]
    rw [strip_append_cons (by decide)]
    rw [splitHead_append_cons_self (fun a ha => (h a (mem_lstrip ha)).2.1)]
    rw [strip_lstrip]
    rw [splitHead_eq_self (fun a ha => (h a (mem_strip ha)).2.2), strip_strip]
  · intro l r h
    unfold simple
    rw [splitHead_append_cons_ne (fun a ha => (h a ha).1) (by decide) r]
    rw [strip_append_cons (by decide)]
    rw [splitHead_append_cons_ne (fun a ha => (h a (mem_lstrip ha)).2.1) (by decide)]
    rw [strip_append_cons (by decide)]
    rw [lstrip_idem]
    rw [splitHead_append_cons_self (fun a ha => (h a (mem_lstrip ha)).2.2)]
    rw [strip_lstrip]

/-- Witness for `C3_simple_truncation` at concrete inputs: a string with
no delimiter characters is only trimmed, and each of a bare hyphen, a
`'('` and a `'['` truncates with the surrounding whitespace trimmed. -/
theorem C3_witness :
    simple "  ACDC  ".data = "ACDC".data ∧ simple "AC-DC".data = "AC".data
    ∧ simple "Song (Live - 1979)".data = "Song".data
    ∧ simple "Song [Remix]".data = "Song".data := by
  refine ⟨?_, ?_, ?_, ?_⟩
  · rw [C3_simple_truncation.1 "  ACDC  ".data (by decide)]
    decide
  · rw [show "AC-DC".data = "AC".data ++ '-' :: "DC".data by decide]
    rw [C3_simple_truncation.2.1 "AC".data "DC".data (by decide)]
    decide
  · rw [show "Song (Live - 1979)".data = "Song ".data ++ '(' :: "Live - 1979)".data by decide]
    rw [C3_simple_truncation.2.2.1 "Song ".data "Live - 1979)".data (by decide)]
    decide
  · rw [show "Song [Remix]".data = "Song ".data ++ '[' :: "Remix]".data by decide]
    rw [C3_simple_truncation.2.2.2 "Song ".data "Remix]".data (by decide)]
    decide

/-! ## Failure Ledger (cache.py, `MatchFailureDatabase`, lines 8-131)

Time is modelled as an integer number of days (every `timedelta` in the
source is a whole number of days); `datetime.datetime.now()` becomes an
explicit `now` argument.  The `match_failures` SQLite table, keyed by
`track_id`, is an association list; the primary key makes keys unique in
any reachable database, and the operations below preserve that. -/

structure FailureRecord where
  insert_time : Int
  next_retry : Int
  failure_count : Nat
  last_error : Option String
  deriving DecidableEq

/-- The `match_failures` table: rows keyed by `track_id`. -/
abbrev FailureDB := List (String × FailureRecord)

/-- `SELECT ... WHERE track_id == id` followed by `fetchone()`. -/
def lookupFailure (db : FailureDB) (track_id : String) : Option FailureRecord :=
  (db.find? (fun p => p.1 == track_id)).map (fun p => p.2)

/-- `MatchFailureDatabase._get_next_retry_time` (cache.py lines 57-66).
When `insert_time` is passed (truthy), the interval is
`7 days * min(2^(failure_count-1), 4)`; otherwise a flat 7 days.  In both
branches the base instant is `datetime.datetime.now()` — the `now`
argument here — not `insert_time`, which is only tested for truthiness. -/
def getNextRetryTime (now : Int) (insert_time : Option Int) (failure_count : Nat) : Int :=
  if insert_time.isSome then
    now + 7 * min (2 ^ (failure_count - 1)) 4
  else
    now + 7

/-- `MatchFailureDatabase.cache_match_failure` (cache.py lines 68-96):
upsert — if a row exists, increment `failure_count`, recompute
`next_retry` via `_get_next_retry_time(existing.insert_time, new_count)`
and overwrite `last_error`; otherwise insert a fresh row with count 1. -/
def cache_match_failure (db : FailureDB) (now : Int) (track_id : String)
    (error_message : Option String := none) : FailureDB :=
  match lookupFailure db track_id with
  | some r =>
    db.map (fun p =>
      if p.1 == track_id then
        (p.1, { insert_time := r.insert_time,
                next_retry := getNextRetryTime now (some r.insert_time) (r.failure_count + 1),
                failure_count := r.failure_count + 1,
                last_error := error_message })
      else p)
  | none =>
    db ++ [(track_id, { insert_time := now,
                        next_retry := getNextRetryTime now none 1,
                        failure_count := 1,
                        last_error := error_message })]

/-- `MatchFailureDatabase.has_match_failure` (cache.py lines 98-106):
true iff a row exists and its `next_retry` is strictly in the future. -/
def has_match_failure (db : FailureDB) (now : Int) (track_id : String) : Bool :=
  match lookupFailure db track_id with
  | some r => decide (r.next_retry > now)
  | none => false

/-- `MatchFailureDatabase.remove_match_failure` (cache.py lines 125-131):
hard delete of the row for `track_id`. -/
def remove_match_failure (db : FailureDB) (track_id : String) : FailureDB :=
  db.filter (fun p => p.1 != track_id)

/-! ## Claim C8 -/

/-- Claim C8: for an existing record (truthy `insert_time`) the backoff
interval `next_retry - now` equals `7 * min(2^(failure_count-1), 4)`
days; at failure counts 1,2,3,4,5 this is exactly 7,14,28,28,28 days; it
is monotonically non-decreasing in the failure count and capped at 28
days.  (A fresh record uses the `insert_time = None` branch, whose flat
7 days agrees with the formula at count 1.) -/
theorem C8_backoff_intervals :
    (∀ now t : Int, ∀ c : Nat,
        getNextRetryTime now (some t) c - now = 7 * min (2 ^ (c - 1)) 4)
    ∧ (∀ now t : Int,
        getNextRetryTime now (some t) 1 - now = 7
        ∧ getNextRetryTime now (some t) 2 - now = 14
        ∧ getNextRetryTime now (some t) 3 - now = 28
        ∧ getNextRetryTime now (some t) 4 - now = 28
        ∧ getNextRetryTime now (some t) 5 - now = 28)
    ∧ (∀ now t : Int, ∀ c c' : Nat, c ≤ c' →
        getNextRetryTime now (some t) c ≤ getNextRetryTime now (some t) c')
    ∧ (∀ now t : Int, ∀ c : Nat, getNextRetryTime now (some t) c - now ≤ 28)
    ∧ (∀ now : Int, getNextRetryTime now none 1 - now = 7) := by
  have hval : ∀ now t : Int, ∀ c : Nat,
      getNextRetryTime now (some t) c - now = 7 * min (2 ^ (c - 1)) 4 := by
    intro now t c
    simp [getNextRetryTime]
  refine ⟨hval, ?_, ?_, ?_, ?_⟩
  · intro now t
    refine ⟨?_, ?_, ?_, ?_, ?_⟩ <;> (rw [hval]; try norm_num [min_def])
  · intro now t c c' hc
    simp only [getNextRetryTime, Option.isSome_some, if_true]
    have h2 : (2 : Int) ^ (c - 1) ≤ 2 ^ (c' - 1) :=
      pow_le_pow_right₀ (by norm_num) (Nat.sub_le_sub_right hc 1)
    have : min ((2 : Int) ^ (c - 1)) 4 ≤ min ((2 : Int) ^ (c' - 1)) 4 :=
      min_le_min h2 le_rfl
    linarith
  · intro now t c
    rw [hval]
    have : min ((2 : Int) ^ (c - 1)) 4 ≤ 4 := min_le_right _ _
    linarith
  · intro now
    simp [getNextRetryTime]

/-- Witness for `C8_backoff_intervals`: monotonicity applied at counts
2 ≤ 3 with concrete times. -/
theorem C8_witness :
    getNextRetryTime 0 (some 0) 2 ≤ getNextRetryTime 0 (some 0) 3 :=
  C8_backoff_intervals.2.2.1 0 0 2 3 (by norm_num)

/-! ## Claim C7 -/

/-- Claim C7: `has_match_failure` returns true exactly when a record for
the id exists and its `next_retry` is strictly in the future; an expired
backoff window yields false, a missing record yields false, and
immediately after `remove_match_failure` the result is false at any
query time. -/
theorem C7_has_failure_semantics :
    (∀ db : FailureDB, ∀ now : Int, ∀ id : String, ∀ r : FailureRecord,
        lookupFailure db id = some r → now < r.next_retry →
          has_match_failure db now id = true)
    ∧ (∀ db : FailureDB, ∀ now : Int, ∀ id : String, ∀ r : FailureRecord,
        lookupFailure db id = some r → r.next_retry ≤ now →
          has_match_failure db now id = false)
    ∧ (∀ db : FailureDB, ∀ now : Int, ∀ id : String,
        lookupFailure db id = none → has_match_failure db now id = false)
    ∧ (∀ db : FailureDB, ∀ now : Int, ∀ id : String,
        has_match_failure (remove_match_failure db id) now id = false) := by
  refine ⟨?_, ?_, ?_, ?_⟩
  · intro db now id r h hlt
    simp [has_match_failure, h, hlt]
  · intro db now id r h hle
    simp [has_match_failure, h]
    omega
  · intro db now id h
    simp [has_match_failure, h]
  · intro db now id
    have hnone : lookupFailure (remove_match_failure db id) id = none := by
      unfold lookupFailure
      rw [Option.map_eq_none', List.find?_eq_none]
      intro p hp
      have := List.of_mem_filter hp
      simpa using this
    simp [has_match_failure, hnone]

/-- Witness for `C7_has_failure_semantics`: a record whose backoff window
has expired (next_retry 7 ≤ now 10) yields false. -/
theorem C7_witness :
    has_match_failure [("trk", ⟨0, 7, 1, none⟩)] 10 "trk" = false :=
  C7_has_failure_semantics.2.1 [("trk", ⟨0, 7, 1, none⟩)] 10 "trk" ⟨0, 7, 1, none⟩
    (by decide) (by norm_num)

/-! ## Claim C2 -/

theorem find?_map_of_key_preserving (f : String × FailureRecord → String × FailureRecord)
    (hf : ∀ p, (f p).1 = p.1) (db : FailureDB) (id : String) :
    (db.map f).find? (fun p => p.1 == id) = (db.find? (fun p => p.1 == id)).map f := by
  induction db with
  | nil => rfl
  | cons p t ih =>
    by_cases h : p.1 == id
    · simp [List.find?_cons, hf, h]
    · simp only [List.map_cons, List.find?_cons, hf, h]
      simpa [h] using ih

/-- Modelled from the spec (section 3 invariant): `next_retry` derived
from `insert_time` and `failure_count` by the backoff function of
section 4.2.  This definition follows the spec's words; the source's
`_get_next_retry_time` is the authority it is compared against. -/
def nextRetryFromInsertSpec (insert_time : Int) (failure_count : Nat) : Int :=
  insert_time + 7 * min (2 ^ (failure_count - 1)) 4

/-- Failure database after one `cache_match_failure` at time 0. -/
def C2db1 : FailureDB := cache_match_failure [] 0 "trk" none

/-- Failure database after a second `cache_match_failure` at time 100. -/
def C2db2 : FailureDB := cache_match_failure C2db1 100 "trk" none

/-- Claim C2, counterexample.  A record created at time 0 and updated at
time 100 ends with `next_retry = 114 = 100 + 14`: the base instant is
the time of the update (`datetime.now()` inside `_get_next_retry_time`),
not the original `insert_time`, which would give `0 + 14 = 14`.  The
claimed invariant "`next_retry` equals the backoff function applied to
the record's original `insert_time` and its current `failure_count`"
fails after this two-operation sequence. -/
theorem C2_counterexample :
    lookupFailure C2db2 "trk" = some ⟨0, 114, 2, none⟩
      ∧ nextRetryFromInsertSpec 0 2 = 14
      ∧ (114 : Int) ≠ 14 := by decide

/-- Claim C2, amended: after any `cache_match_failure` at time `now`, the
record's `next_retry` equals `now` plus the backoff interval determined
by the resulting `failure_count` — `7 * min(2^(count-1), 4)` days — for
both the update of an existing record and the creation of a fresh one.
The original `insert_time` is carried along unchanged but does not enter
the computation of `next_retry` (it is only tested for truthiness inside
`_get_next_retry_time`), so an update's `next_retry` is based on the
time of the update, not on the original `insert_time`. -/
theorem C2_next_retry_from_update_time :
    (∀ db : FailureDB, ∀ now : Int, ∀ id : String, ∀ err : Option String, ∀ r : FailureRecord,
        lookupFailure db id = some r →
          lookupFailure (cache_match_failure db now id err) id =
            some ⟨r.insert_time, now + 7 * min (2 ^ r.failure_count) 4,
                  r.failure_count + 1, err⟩)
    ∧ (∀ db : FailureDB, ∀ now : Int, ∀ id : String, ∀ err : Option String,
        lookupFailure db id = none →
          lookupFailure (cache_match_failure db now id err) id =
            some ⟨now, now + 7, 1, err⟩) := by
  constructor
  · intro db now id err r h
    unfold cache_match_failure
    rw [h]
    unfold lookupFailure at h ⊢
    rcases hf : db.find? (fun p => p.1 == id) with _ | p
    · rw [hf] at h; exact absurd h (by simp)
    · rw [hf] at h
      have hpr : p.2 = r := by simpa using h
      have hp : (p.1 == id) = true := by simpa using List.find?_some hf
      rw [find?_map_of_key_preserving _ (fun q => by by_cases hq : q.1 == id <;> simp [hq])]
      rw [hf]
      have hpe : p.1 = id := by simpa using hp
      simp [hp, hpe, hpr, getNextRetryTime]
  · intro db now id err h
    unfold cache_match_failure
    rw [h]
    unfold lookupFailure at h ⊢
    simp only [Option.map_eq_none'] at h
    rw [List.find?_append, h]
    simp [getNextRetryTime]

/-- Witness for `C2_next_retry_from_update_time`: updating the concrete
one-row database at time 100 yields `next_retry = 114`. -/
theorem C2_witness :
    lookupFailure (cache_match_failure [("trk", ⟨0, 7, 1, none⟩)] 100 "trk" none) "trk" =
      some ⟨0, 114, 2, none⟩ := by
  have h := C2_next_retry_from_update_time.1 [("trk", ⟨0, 7, 1, none⟩)] 100 "trk" none
    ⟨0, 7, 1, none⟩ (by decide)
  rw [h]
  norm_num [min_def]

/-! ## Correspondence Cache (cache.py, `TrackMatchCache`, lines 302-365)

The Python dict `data` is an association list with unique keys: `insert`
overwrites in place when the key exists (Python dicts keep the original
position) and appends otherwise.  `get` returns the stored value (or
`none`) and bumps `hits` when the value is truthy — a present value `0`
is falsy in Python and bumps `misses` instead. -/

structure TrackMatchCache where
  data : List (String × Int)
  hits : Nat
  misses : Nat
  inserts : Nat
  deriving DecidableEq

/-- The empty cache, as built by `TrackMatchCache.__init__`. -/
def emptyCache : TrackMatchCache := { data := [], hits := 0, misses := 0, inserts := 0 }

/-- Python `self.data.get(track_id, None)`. -/
def TrackMatchCache.lookup (c : TrackMatchCache) (track_id : String) : Option Int :=
  (c.data.find? (fun p => p.1 == track_id)).map (fun p => p.2)

/-- Python truthiness of `self.data.get(track_id, None)`: `None` and the
integer `0` are falsy. -/
def optTruthy : Option Int → Bool
  | none => false
  | some v => v != 0

/-- `TrackMatchCache.get` (cache.py lines 317-324): returns the stored
value and bumps `hits` if it is truthy, `misses` otherwise. -/
def TrackMatchCache.get (c : TrackMatchCache) (track_id : String) :
    Option Int × TrackMatchCache :=
  let result := c.lookup track_id
  if optTruthy result then (result, { c with hits := c.hits + 1 })
  else (result, { c with misses := c.misses + 1 })

/-- `get` returns exactly the stored value. -/
theorem TrackMatchCache.get_fst (c : TrackMatchCache) (i : String) :
    (c.get i).1 = c.lookup i := by
  unfold TrackMatchCache.get
  by_cases h : optTruthy (c.lookup i) = true <;> simp [h]

/-- `get` mutates only the statistics, never the data. -/
theorem TrackMatchCache.get_data (c : TrackMatchCache) (i : String) :
    (c.get i).2.data = c.data := by
  unfold TrackMatchCache.get
  by_cases h : optTruthy (c.lookup i) = true <;> simp [h]

/-- Lookups are unchanged by the statistics updates of `get`. -/
theorem TrackMatchCache.get_lookup (c : TrackMatchCache) (i j : String) :
    (c.get i).2.lookup j = c.lookup j := by
  unfold TrackMatchCache.lookup
  rw [TrackMatchCache.get_data]

/-- Python dict assignment `self.data[k] = v`. -/
def dictInsert (data : List (String × Int)) (k : String) (v : Int) : List (String × Int) :=
  if data.any (fun p => p.1 == k) then
    data.map (fun p => if p.1 == k then (k, v) else p)
  else
    data ++ [(k, v)]

/-- `TrackMatchCache.insert` (cache.py lines 326-329). -/
def TrackMatchCache.insert (c : TrackMatchCache) (mapping : String × Int) : TrackMatchCache :=
  { c with data := dictInsert c.data mapping.1 mapping.2, inserts := c.inserts + 1 }

/-- `TrackMatchCache.has_match` (cache.py lines 363-365): Python
`track_id in self.data`, no statistics update. -/
def TrackMatchCache.has_match (c : TrackMatchCache) (track_id : String) : Bool :=
  c.data.any (fun p => p.1 == track_id)

/-! ## Unresolved worklist (sync.py, `get_new_spotify_tracks`, lines 159-164)

The Python `and` chain short-circuits: for a falsy id neither the cache
nor the failure ledger is consulted; for a truthy cached value the
ledger is not consulted.  Each `get` call mutates the statistics, so the
cache is threaded through. -/

def get_new_spotify_tracks (db : FailureDB) (now : Int) :
    TrackMatchCache → List SpotifyTrack → List SpotifyTrack × TrackMatchCache
  | c, [] => ([], c)
  | c, s :: rest =>
    if s.id == "" then get_new_spotify_tracks db now c rest
    else
      let g := c.get s.id
      if optTruthy g.1 then get_new_spotify_tracks db now g.2 rest
      else if has_match_failure db now s.id then get_new_spotify_tracks db now g.2 rest
      else
        let q := get_new_spotify_tracks db now g.2 rest
        (s :: q.1, q.2)

/-! ## Claim C10 -/

/-- Claim C10: for a cache entry whose stored target id is the falsy
integer `0`, `get` returns the stored value (`some 0`) but increments
`misses` instead of `hits`; `has_match` still returns true for the same
id; and `get_new_spotify_tracks` classifies a source track with that id
(and no active failure record) as unresolved, scheduling a fresh remote
search. -/
theorem C10_falsy_cached_id (c : TrackMatchCache) (id : String) (db : FailureDB)
    (now : Int) (s : SpotifyTrack) (hdata : c.lookup id = some 0) (hs : s.id = id)
    (hid : id ≠ "") (hf : has_match_failure db now id = false) :
    (c.get id).1 = some 0
    ∧ (c.get id).2.misses = c.misses + 1
    ∧ (c.get id).2.hits = c.hits
    ∧ c.has_match id = true
    ∧ s ∈ (get_new_spotify_tracks db now c [s]).1 := by
  have hget : c.get id = (some 0, { c with misses := c.misses + 1 }) := by
    unfold TrackMatchCache.get
    rw [hdata]
    rfl
  refine ⟨by rw [hget], by rw [hget], by rw [hget], ?_, ?_⟩
  · unfold TrackMatchCache.has_match
    unfold TrackMatchCache.lookup at hdata
    rcases hfind : c.data.find? (fun p => p.1 == id) with _ | p
    · rw [hfind] at hdata; exact absurd hdata (by simp)
    · rw [List.any_eq_true]
      exact ⟨p, List.mem_of_find?_eq_some hfind, by simpa using List.find?_some hfind⟩
  · unfold get_new_spotify_tracks
    rw [if_neg (by simp [hs, hid]), hs, hget]
    simp [optTruthy, hf]

/-- Witness for `C10_falsy_cached_id` at a concrete cache holding
`("sp", 0)` and an empty failure ledger. -/
theorem C10_witness :
    ({ data := [("sp", 0)], hits := 3, misses := 4, inserts := 1 } : TrackMatchCache).has_match "sp"
        = true
    ∧ (({ data := [("sp", 0)], hits := 3, misses := 4, inserts := 1 } : TrackMatchCache).get "sp").2.misses
        = 5 := by
  have h := C10_falsy_cached_id { data := [("sp", 0)], hits := 3, misses := 4, inserts := 1 }
    "sp" [] 0 { id := "sp", name := [], artists := [], duration := 0, isrc := "" }
    (by decide) rfl (by decide) (by decide)
  exact ⟨h.2.2.2.1, h.2.1⟩

/-! ## Seeding (sync.py, `populate_track_match_cache`, lines 132-157)

The function works on mutable copies of the two track lists.  The first
pass iterates the tidal (target) tracks, matching each against the
remaining spotify pool and popping the matched *spotify* track only —
the tidal track stays in its list.  The second pass iterates the
remaining spotify tracks, matching each against the (never-shrunk-by-
pass-1) tidal pool and popping the matched *tidal* track.  The output
here is the ordered sequence of `track_match_cache.insert` pairs. -/

/-- Find the first element satisfying `p` and the list with that element
removed: Python's scan-then-`pop(idx)` idiom used by both passes. -/
def extractFirst (p : α → Bool) : List α → Option (α × List α)
  | [] => none
  | x :: xs =>
    if p x then some (x, xs)
    else
      match extractFirst p xs with
      | some (y, ys) => some (y, x :: ys)
      | none => none

/-- First pass (`_populate_one_track_from_tidal` applied to each tidal
track, sync.py lines 141-146 and 153-154): returns the insertion pairs
and the remaining spotify pool. -/
def populate_pass_tidal : List TidalTrack → List SpotifyTrack →
    List (String × Int) × List SpotifyTrack
  | [], spool => ([], spool)
  | t :: rest, spool =>
    match extractFirst (fun s => t.available && track_matches t s) spool with
    | some (s, spool') =>
      let q := populate_pass_tidal rest spool'
      ((s.id, t.id) :: q.1, q.2)
    | none => populate_pass_tidal rest spool

/-- Second pass (`_populate_one_track_from_spotify` applied to each
remaining spotify track, sync.py lines 134-139 and 156-157): returns the
insertion pairs and the remaining tidal pool. -/
def populate_pass_spotify : List SpotifyTrack → List TidalTrack →
    List (String × Int) × List TidalTrack
  | [], tpool => ([], tpool)
  | s :: rest, tpool =>
    match extractFirst (fun t => t.available && track_matches t s) tpool with
    | some (t, tpool') =>
      let q := populate_pass_spotify rest tpool'
      ((s.id, t.id) :: q.1, q.2)
    | none => populate_pass_spotify rest tpool

/-- `populate_track_match_cache` (sync.py lines 132-157) as the ordered
sequence of cache insertions it performs.  The second pass receives the
*original* tidal list: pass 1 pops only spotify tracks. -/
def populate_track_match_cache (spotify_tracks : List SpotifyTrack)
    (tidal_tracks : List TidalTrack) : List (String × Int) :=
  let q := populate_pass_tidal tidal_tracks spotify_tracks
  (q.1 ++ (populate_pass_spotify q.2 tidal_tracks).1)

/-! ### Pool-shape lemmas for the two seeding passes -/

theorem extractFirst_eq_some {p : α → Bool} {l : List α} {x : α} {l' : List α}
    (h : extractFirst p l = some (x, l')) :
    ∃ l₁ l₂, l = l₁ ++ x :: l₂ ∧ l' = l₁ ++ l₂ := by
  induction l generalizing l' with
  | nil => simp [extractFirst] at h
  | cons a t ih =>
    unfold extractFirst at h
    split at h
    · have hx : a = x ∧ t = l' := by simpa using h
      refine ⟨[], t, ?_, ?_⟩
      · simp [hx.1]
      · simp [hx.2]
    · rcases he : extractFirst p t with _ | ⟨y, ys⟩
      · rw [he] at h; simp at h
      · rw [he] at h
        have hx : y = x ∧ a :: ys = l' := by simpa using h
        obtain ⟨hy, hleq⟩ := hx
        subst hy
        subst hleq
        rcases ih he with ⟨l₁, l₂, hl, hl'⟩
        refine ⟨a :: l₁, l₂, ?_, ?_⟩
        · rw [List.cons_append, ← hl]
        · rw [List.cons_append, ← hl']

theorem pass_tidal_snd_sublist (tl : List TidalTrack) (sp : List SpotifyTrack) :
    List.Sublist ((populate_pass_tidal tl sp).1.map Prod.snd) (tl.map TidalTrack.id) := by
  induction tl generalizing sp with
  | nil => simp [populate_pass_tidal]
  | cons t rest ih =>
    rcases he : extractFirst (fun s => t.available && track_matches t s) sp with _ | ⟨s, sp'⟩
    · simp only [populate_pass_tidal, he, List.map_cons]
      exact (ih sp).cons _
    · simp only [populate_pass_tidal, he, List.map_cons]
      exact (ih sp').cons₂ _

theorem pass_spotify_snd_nodup (sp : List SpotifyTrack) (tp : List TidalTrack)
    (hnd : (tp.map TidalTrack.id).Nodup) :
    ((populate_pass_spotify sp tp).1.map Prod.snd).Nodup
    ∧ ∀ x ∈ (populate_pass_spotify sp tp).1.map Prod.snd, x ∈ tp.map TidalTrack.id := by
  induction sp generalizing tp with
  | nil => simp [populate_pass_spotify]
  | cons s rest ih =>
    rcases he : extractFirst (fun t => t.available && track_matches t s) tp with _ | ⟨t, tp'⟩
    · simp only [populate_pass_spotify, he]
      exact ih tp hnd
    · obtain ⟨l₁, l₂, hl, hl'⟩ := extractFirst_eq_some he
      have hids : tp.map TidalTrack.id =
          l₁.map TidalTrack.id ++ t.id :: l₂.map TidalTrack.id := by
        rw [hl]; simp
      have hids' : tp'.map TidalTrack.id =
          l₁.map TidalTrack.id ++ l₂.map TidalTrack.id := by
        rw [hl']; simp
      rw [hids, List.nodup_middle, List.nodup_cons] at hnd
      have hnd' : (tp'.map TidalTrack.id).Nodup := by rw [hids']; exact hnd.2
      have hnotin : t.id ∉ tp'.map TidalTrack.id := by rw [hids']; exact hnd.1
      obtain ⟨ihnd, ihsub⟩ := ih tp' hnd'
      constructor
      · simp only [populate_pass_spotify, he, List.map_cons]
        rw [List.nodup_cons]
        exact ⟨fun hmem => hnotin (ihsub _ hmem), ihnd⟩
      · simp only [populate_pass_spotify, he, List.map_cons]
        intro x hx
        rw [hids]
        rcases List.mem_cons.mp hx with rfl | hx'
        · exact List.mem_append_right _ (List.mem_cons_self _ _)
        · have := ihsub _ hx'
          rw [hids'] at this
          rcases List.mem_append.mp this with h1 | h2
          · exact List.mem_append_left _ h1
          · exact List.mem_append_right _ (List.mem_cons_of_mem _ h2)

/-! ## Claim C4 -/

/-- Tidal track matched by both C4 spotify tracks (shared ISRC). -/
def C4tidal : TidalTrack :=
  { id := 7, name := "t".data, artists := [], duration := 0, isrc := "II", available := true }

/-- First C4 spotify track. -/
def C4s1 : SpotifyTrack :=
  { id := "s1", name := "a".data, artists := [], duration := 0, isrc := "II" }

/-- Second C4 spotify track. -/
def C4s2 : SpotifyTrack :=
  { id := "s2", name := "b".data, artists := [], duration := 0, isrc := "II" }

/-- Claim C4, counterexample.  Pass 1 matches the tidal track with the
first spotify track and pops only the spotify track; the tidal track
stays in the pool, so pass 2 assigns it again to the second spotify
track: the seeding insertions map the two distinct source ids `"s1"`,
`"s2"` to the same target id `7`.  (The source comments at sync.py line
155 call this out as deliberate "many-to-one style mappings" support —
the claim's removes-from-both-pools description does not match the
code.) -/
theorem C4_counterexample :
    populate_track_match_cache [C4s1, C4s2] [C4tidal] = [("s1", 7), ("s2", 7)]
      ∧ ("s1" : String) ≠ "s2" := by decide

/-- Claim C4, amended: pass 1 removes only the matched *source* track
from its pool (the matched target remains available), and pass 2 removes
the matched *target* track; consequently seeding is not injective on
target ids — a target matched in pass 1 can be re-assigned once in pass
2 (deliberate many-to-one support).  What does hold: within each pass
the insertions map distinct source ids to distinct target ids (for a
target list with pairwise-distinct ids), so across the whole seeding
each target id is cache-inserted for at most two distinct source ids. -/
theorem C4_target_assigned_at_most_twice (spotify_tracks : List SpotifyTrack)
    (tidal_tracks : List TidalTrack)
    (hnd : (tidal_tracks.map TidalTrack.id).Nodup) (tid : Int) :
    (((populate_pass_tidal tidal_tracks spotify_tracks).1.map Prod.snd).Nodup)
    ∧ (((populate_pass_spotify (populate_pass_tidal tidal_tracks spotify_tracks).2
          tidal_tracks).1.map Prod.snd).Nodup)
    ∧ ((populate_track_match_cache spotify_tracks tidal_tracks).map Prod.snd).count tid ≤ 2 := by
  have h1 := pass_tidal_snd_sublist tidal_tracks spotify_tracks
  have hnd1 : ((populate_pass_tidal tidal_tracks spotify_tracks).1.map Prod.snd).Nodup :=
    h1.nodup hnd
  have h2 := pass_spotify_snd_nodup (populate_pass_tidal tidal_tracks spotify_tracks).2
    tidal_tracks hnd
  refine ⟨hnd1, h2.1, ?_⟩
  unfold populate_track_match_cache
  rw [List.map_append, List.count_append]
  have c1 : ((populate_pass_tidal tidal_tracks spotify_tracks).1.map Prod.snd).count tid ≤ 1 :=
    List.nodup_iff_count_le_one.mp hnd1 tid
  have c2 := List.nodup_iff_count_le_one.mp h2.1 tid
  omega

/-- Witness for `C4_target_assigned_at_most_twice` at the concrete
counterexample tracks (each target id occurs at most twice). -/
theorem C4_witness :
    ((populate_track_match_cache [C4s1, C4s2] [C4tidal]).map Prod.snd).count 7 ≤ 2 :=
  (C4_target_assigned_at_most_twice [C4s1, C4s2] [C4tidal] (by decide) 7).2.2

/-! ## Batched resolution (sync.py, lines 56-130 and 184-201)

The remote search is an oracle from the query string (sync.py line 103:
`f"{track_name} {artist_name}"`) to the list of candidate tidal tracks.
`tidal_search_batch` only adds batching, inter-batch sleeps and
per-item exception-to-`None` conversion around sequential per-item
semantics, so the batch is modelled as a sequential fold of
`tidal_search_single`.  Cache and ledger writes are logged. -/

inductive SyncWrite
  | cacheInsert (sid : String) (tid : Int)
  | failureWrite (sid : String)
  deriving DecidableEq

/-- Combined mutable state: the Correspondence Cache singleton and the
Failure Ledger database. -/
structure SyncState where
  cache : TrackMatchCache
  fdb : FailureDB
  deriving DecidableEq

/-- The per-artist search loop of `tidal_search_single` (sync.py lines
100-130): for each artist in turn, query the oracle and accept the first
candidate satisfying `track_matches`; if all artists are exhausted, record the
failure (when the id is truthy). -/
def searchArtists (oracle : List Char → List TidalTrack) (now : Int) (st : SyncState)
    (s : SpotifyTrack) (track_name : List Char) :
    List (List Char) → Option TidalTrack × SyncState × List SyncWrite
  | [] =>
    if s.id != "" then
      (none, { st with fdb := cache_match_failure st.fdb now s.id none },
        [SyncWrite.failureWrite s.id])
    else (none, st, [])
  | artist :: rest =>
    let artist_name := simple artist
    let query := track_name ++ ' ' :: artist_name
    match (oracle query).find? (fun t => track_matches t s) with
    | some t =>
      if s.id != "" then
        (some t, { st with cache := st.cache.insert (s.id, t.id) },
          [SyncWrite.cacheInsert s.id t.id])
      else (some t, st, [])
    | none => searchArtists oracle now st s track_name rest

/-- `tidal_search_single` (sync.py lines 81-130): failure-ledger
pre-check, cached-match pre-check (two statistics-only `get` calls, the
result is discarded — sync.py lines 90-98), then the per-artist loop. -/
def tidal_search_single (oracle : List Char → List TidalTrack) (now : Int)
    (st : SyncState) (s : SpotifyTrack) : Option TidalTrack × SyncState × List SyncWrite :=
  let track_name := simple s.name
  if s.id != "" && has_match_failure st.fdb now s.id then (none, st, [])
  else
    let st1 :=
      if s.id != "" then
        let g := st.cache.get s.id
        if optTruthy g.1 then
          { st with cache := (g.2.get s.id).2 }
        else { st with cache := g.2 }
      else st
    searchArtists oracle now st1 s track_name s.artists

/-- Sequential elaboration of `tidal_search_batch` (sync.py lines
56-79): results in input order, states and write logs threaded. -/
def run_search_batch (oracle : List Char → List TidalTrack) (now : Int) :
    SyncState → List SpotifyTrack → SyncState × List (Option TidalTrack) × List SyncWrite
  | st, [] => (st, [], [])
  | st, s :: rest =>
    let r := tidal_search_single oracle now st s
    let q := run_search_batch oracle now r.2.1 rest
    (q.1, r.1 :: q.2.1, r.2.2 ++ q.2.2)

/-- The result-insertion loop of `search_new_tracks_on_tidal` (sync.py
lines 197-201): for every non-`None` result, insert the pair into the
Correspondence Cache (a second time). -/
def insert_found : SyncState → List SpotifyTrack → List (Option TidalTrack) →
    SyncState × List SyncWrite
  | st, [], _ => (st, [])
  | st, _ :: _, [] => (st, [])
  | st, s :: rest, some t :: rs =>
    let q := insert_found { st with cache := st.cache.insert (s.id, t.id) } rest rs
    (q.1, SyncWrite.cacheInsert s.id t.id :: q.2)
  | st, _ :: rest, none :: rs => insert_found st rest rs

/-- `search_new_tracks_on_tidal` (sync.py lines 184-201): filter the
worklist, return early when it is empty, run the batch, then re-insert
every found match. -/
def search_new_tracks_on_tidal (oracle : List Char → List TidalTrack) (now : Int)
    (st : SyncState) (spotify_tracks : List SpotifyTrack) : SyncState × List SyncWrite :=
  let w := get_new_spotify_tracks st.fdb now st.cache spotify_tracks
  let st1 : SyncState := { st with cache := w.2 }
  if w.1.isEmpty then (st1, [])
  else
    let b := run_search_batch oracle now st1 w.1
    let f := insert_found b.1 w.1 b.2.1
    (f.1, b.2.2 ++ f.2)

/-! ## Claim C5 -/

/-- Write log produced by the per-artist loop: exactly one failure write
on an unmatched outcome, exactly one cache insert on a matched outcome
(for a truthy source id). -/
theorem searchArtists_writes (oracle : List Char → List TidalTrack) (now : Int)
    (st : SyncState) (s : SpotifyTrack) (tn : List Char) (hid : s.id ≠ "")
    (arts : List (List Char)) :
    ((searchArtists oracle now st s tn arts).1 = none →
      (searchArtists oracle now st s tn arts).2.2 = [SyncWrite.failureWrite s.id])
    ∧ (∀ t, (searchArtists oracle now st s tn arts).1 = some t →
      (searchArtists oracle now st s tn arts).2.2 = [SyncWrite.cacheInsert s.id t.id]) := by
  have hb : (s.id != "") = true := by simpa using hid
  induction arts with
  | nil =>
    constructor
    · intro _
      simp [searchArtists, hb]
    · intro t ht
      rw [searchArtists, if_pos hb] at ht
      exact absurd ht (by simp)
  | cons a rest ih =>
    rcases hf : (oracle (tn ++ ' ' :: simple a)).find? (fun t => track_matches t s)
      with _ | t
    · constructor
      · intro hn
        rw [searchArtists] at hn ⊢
        rw [hf] at hn ⊢
        exact ih.1 hn
      · intro t ht
        rw [searchArtists] at ht ⊢
        rw [hf] at ht ⊢
        exact ih.2 t ht
    · constructor
      · intro hn
        simp only [searchArtists, hf, hb, if_true] at hn
        exact absurd hn (by simp)
      · intro t' ht
        simp only [searchArtists, hf, hb, if_true] at ht ⊢
        have : t = t' := by simpa using ht
        simp [this]

/-- Claim C5, counterexample.  A concrete one-track worklist whose search
succeeds produces TWO Correspondence Cache insert calls for the same
pair — one at sync.py line 116 inside `tidal_search_single`, one at line
199 in `search_new_tracks_on_tidal` — so "a matched outcome triggers
exactly one insert call, never more than one" is false. -/
theorem C5_counterexample :
    (search_new_tracks_on_tidal
        (fun q => if q = "t x".data then [C4tidal] else []) 0
        ⟨emptyCache, []⟩
        [{ id := "s1", name := "t".data, artists := ["x".data], duration := 0,
           isrc := "II" }]).2
      = [SyncWrite.cacheInsert "s1" 7, SyncWrite.cacheInsert "s1" 7] := by decide

/-- Claim C5, amended: for a worklist item with a truthy id, no truthy
cache entry and no active failure record, an unmatched-after-all-artists
outcome triggers exactly one Failure Ledger write and no cache write,
while a matched outcome triggers exactly TWO Correspondence Cache insert
calls of the same (source id, target id) pair — one inside the per-item
search, one in the orchestrator's result loop — and no ledger write. -/
theorem C5_write_counts (oracle : List Char → List TidalTrack) (now : Int)
    (st : SyncState) (s : SpotifyTrack) (hid : s.id ≠ "")
    (hc : optTruthy (st.cache.lookup s.id) = false)
    (hf : has_match_failure st.fdb now s.id = false) :
    (search_new_tracks_on_tidal oracle now st [s]).2 = [SyncWrite.failureWrite s.id]
    ∨ ∃ tid, (search_new_tracks_on_tidal oracle now st [s]).2 =
        [SyncWrite.cacheInsert s.id tid, SyncWrite.cacheInsert s.id tid] := by
  have hb : (s.id != "") = true := by simpa using hid
  have hbe : (s.id == "") = false := by simpa using hid
  -- the worklist filter keeps the single track
  have hw : get_new_spotify_tracks st.fdb now st.cache [s] =
      ([s], (st.cache.get s.id).2) := by
    rw [get_new_spotify_tracks, if_neg (by simp [hbe])]
    rw [if_neg ?_, if_neg (by simp [hf])]
    · rfl
    · rw [TrackMatchCache.get_fst, hc]
      simp
  unfold search_new_tracks_on_tidal
  rw [hw]
  simp only [List.isEmpty_cons, if_neg Bool.false_ne_true]
  -- unfold the single-item batch
  have hsingle : ∀ (st' : SyncState), has_match_failure st'.fdb now s.id = false →
      optTruthy (st'.cache.lookup s.id) = false →
      (tidal_search_single oracle now st' s).1 = none ∧
        (tidal_search_single oracle now st' s).2.2 = [SyncWrite.failureWrite s.id]
      ∨ ∃ t, (tidal_search_single oracle now st' s).1 = some t ∧
        (tidal_search_single oracle now st' s).2.2 = [SyncWrite.cacheInsert s.id t.id] := by
    intro st' hf' hc'
    unfold tidal_search_single
    rw [if_neg (by simp [hf'])]
    rw [if_pos hb]
    have hg : optTruthy (st'.cache.get s.id).1 = false := by
      rw [TrackMatchCache.get_fst, hc']
    rw [if_neg (by simp [hg])]
    rcases hres : (searchArtists oracle now { st' with cache := (st'.cache.get s.id).2 } s
        (simple s.name) s.artists).1 with _ | t
    · left
      have := (searchArtists_writes oracle now
        { st' with cache := (st'.cache.get s.id).2 } s (simple s.name) hid s.artists).1 hres
      exact ⟨rfl, this⟩
    · right
      have := (searchArtists_writes oracle now
        { st' with cache := (st'.cache.get s.id).2 } s (simple s.name) hid s.artists).2 t hres
      exact ⟨t, rfl, this⟩
  rcases hsingle { st with cache := (st.cache.get s.id).2 } (by simpa using hf)
      (by rw [TrackMatchCache.get_lookup]; exact hc) with ⟨hn, hwr⟩ | ⟨t, hsome, hwr⟩
  · left
    simp only [run_search_batch, insert_found, hn, hwr]
    rfl
  · right
    refine ⟨t.id, ?_⟩
    simp only [run_search_batch, insert_found, hsome, hwr]
    rfl

/-- Witness for `C5_write_counts` at the concrete counterexample
worklist: the matched branch with two identical insert writes. -/
theorem C5_witness :
    (search_new_tracks_on_tidal (fun q => if q = "t x".data then [C4tidal] else []) 0
        ⟨emptyCache, []⟩
        [{ id := "s1", name := "t".data, artists := ["x".data], duration := 0,
           isrc := "II" }]).2
      = [SyncWrite.failureWrite "s1"]
    ∨ ∃ tid, (search_new_tracks_on_tidal (fun q => if q = "t x".data then [C4tidal] else []) 0
        ⟨emptyCache, []⟩
        [{ id := "s1", name := "t".data, artists := ["x".data], duration := 0,
           isrc := "II" }]).2
      = [SyncWrite.cacheInsert "s1" tid, SyncWrite.cacheInsert "s1" tid] :=
  C5_write_counts (fun q => if q = "t x".data then [C4tidal] else []) 0
    ⟨emptyCache, []⟩
    { id := "s1", name := "t".data, artists := ["x".data], duration := 0, isrc := "II" }
    (by decide) (by decide) (by decide)

/-! ## Playlist reconciler (sync.py, `sync_playlist`, lines 204-296)

Playlist state on the target side is a list of named playlists; the
paginated fetchers `get_all_playlists` / `get_all_playlist_tracks`
(tidalapi_patch.py) deliver exactly the ordered playlist list and the
ordered track list, which is how they are modelled.  Adding tracks by id
makes the playlist hold the catalog's track objects for those ids, so a
`catalog : Int → TidalTrack` resolves ids.  Target-catalog operations
are logged as `SyncAction`s; the read-only failure summary at sync.py
lines 276-281 performs no writes and is omitted. -/

structure TidalPlaylist where
  name : String
  tracks : List TidalTrack
  deriving DecidableEq

structure PlaylistData where
  name : String
  description : String
  tracks : List SpotifyTrack
  coverImage : Option String
  images : List String
  deriving DecidableEq

inductive SyncAction
  | loadPlaylists
  | loadPlaylistTracks (name : String)
  | createPlaylist (name : String) (description : String)
  | clearPlaylist (name : String)
  | addTracks (name : String) (ids : List Int)
  | setCoverArt (name : String)
  deriving DecidableEq

/-- Python truthiness of the cover-art URL string. -/
def coverTruthy : Option String → Bool
  | none => false
  | some u => u != ""

/-- The loop body of `get_tracks_for_new_tidal_playlist` (sync.py lines
171-181): skip falsy ids, `get` from the cache (mutating statistics),
skip falsy (absent or zero) cached values, and deduplicate target ids
via the `seen_tracks` set. -/
def gtfn_go : TrackMatchCache → List Int → List SpotifyTrack → List Int × TrackMatchCache
  | c, _, [] => ([], c)
  | c, seen, s :: rest =>
    if s.id == "" then gtfn_go c seen rest
    else
      let g := c.get s.id
      if optTruthy g.1 then
        let tid := g.1.getD 0
        if seen.contains tid then gtfn_go g.2 seen rest
        else
          let q := gtfn_go g.2 (tid :: seen) rest
          (tid :: q.1, q.2)
      else gtfn_go g.2 seen rest

/-- `get_tracks_for_new_tidal_playlist` (sync.py lines 166-182). -/
def get_tracks_for_new_tidal_playlist (c : TrackMatchCache) (spotify_tracks : List SpotifyTrack) :
    List Int × TrackMatchCache :=
  gtfn_go c [] spotify_tracks

/-- The sequence of `track_match_cache.insert` calls issued by
`populate_track_match_cache`, applied to the cache. -/
def batch_insert_cache (c : TrackMatchCache) (log : List (String × Int)) : TrackMatchCache :=
  log.foldl (fun acc m => acc.insert m) c

/-- The Seeding and Resolving states of one reconciler run (sync.py
lines 242-246): seed the cache from the existing playlist, then search
for the remaining unresolved tracks. -/
def sync_resolve_state (oracle : List Char → List TidalTrack) (now : Int) (st : SyncState)
    (spotify_tracks : List SpotifyTrack) (old_tracks : List TidalTrack) : SyncState :=
  let st1 : SyncState :=
    { st with cache :=
        batch_insert_cache st.cache (populate_track_match_cache spotify_tracks old_tracks) }
  (search_new_tracks_on_tidal oracle now st1 spotify_tracks).1

/-- `sync_playlist` (sync.py lines 204-296): empty-source early return,
load-or-create, seed, resolve, diff, and apply (clear-then-add) plus
conditional cover-art upload.  Returns the updated target playlists, the
updated cache/ledger state, and the ordered target-catalog operations. -/
def sync_playlist (catalog : Int → TidalTrack) (oracle : List Char → List TidalTrack)
    (now : Int) (pd : PlaylistData) (env : List TidalPlaylist) (st : SyncState) :
    List TidalPlaylist × SyncState × List SyncAction :=
  let cover_url : Option String :=
    match pd.coverImage with
    | some u => some u
    | none => pd.images.head?
  if pd.tracks.isEmpty then (env, st, [])
  else
    let found := env.find? (fun p => p.name == pd.name)
    let old_tracks := (found.map TidalPlaylist.tracks).getD []
    let playlist_created := found.isNone
    let env1 := if playlist_created then env ++ [{ name := pd.name, tracks := [] }] else env
    let acts0 :=
      if playlist_created then
        [SyncAction.loadPlaylists, SyncAction.createPlaylist pd.name pd.description]
      else
        [SyncAction.loadPlaylists, SyncAction.loadPlaylistTracks pd.name]
    let st2 := sync_resolve_state oracle now st pd.tracks old_tracks
    let d := get_tracks_for_new_tidal_playlist st2.cache pd.tracks
    let st3 : SyncState := { st2 with cache := d.2 }
    let new_ids := d.1
    let old_ids := old_tracks.map TidalTrack.id
    if new_ids = old_ids then
      let coverActs :=
        if coverTruthy cover_url && playlist_created then [SyncAction.setCoverArt pd.name]
        else []
      (env1, st3, acts0 ++ coverActs)
    else
      let clearActs :=
        if old_tracks.isEmpty then ([] : List SyncAction) else [SyncAction.clearPlaylist pd.name]
      let addActs :=
        if new_ids.isEmpty then ([] : List SyncAction) else [SyncAction.addTracks pd.name new_ids]
      let env2 := env1.map (fun p =>
        if p.name == pd.name then { p with tracks := new_ids.map catalog } else p)
      let coverActs := if coverTruthy cover_url then [SyncAction.setCoverArt pd.name] else []
      (env2, st3, acts0 ++ clearActs ++ addActs ++ coverActs)

/-! ## Claim C9 -/

/-- Claim C9: when the source playlist's track list is empty,
`sync_playlist` returns immediately (sync.py lines 224-226): no playlist
listing is fetched, no playlist is created, no clear or add is issued,
no cover art is touched, and both the Correspondence Cache and the
Failure Ledger are left exactly as they were. -/
theorem C9_empty_source_playlist (catalog : Int → TidalTrack)
    (oracle : List Char → List TidalTrack) (now : Int) (pd : PlaylistData)
    (env : List TidalPlaylist) (st : SyncState) (h : pd.tracks = []) :
    sync_playlist catalog oracle now pd env st = (env, st, []) := by
  unfold sync_playlist
  rw [h]
  simp

/-- Witness for `C9_empty_source_playlist` at a concrete empty playlist. -/
theorem C9_witness :
    sync_playlist (fun _ => C4tidal) (fun _ => []) 0
      { name := "P", description := "", tracks := [], coverImage := some "u", images := [] }
      [] ⟨emptyCache, []⟩
      = ([], ⟨emptyCache, []⟩, []) :=
  C9_empty_source_playlist _ _ _ _ _ _ rfl

/-! ## Claim C6 -/

/-- Source track unresolved in run 1 (its search query returns nothing)
but heuristically matching `C6Tj` during run-2 seeding. -/
def C6sf : SpotifyTrack :=
  { id := "sf", name := "f".data, artists := ["x".data], duration := 5000, isrc := "IF" }

/-- Source track resolved to `C6Ta` by ISRC. -/
def C6sa : SpotifyTrack :=
  { id := "sa", name := "a".data, artists := ["y".data], duration := 100000, isrc := "IA" }

/-- Source track resolved to `C6Tj` by ISRC. -/
def C6so : SpotifyTrack :=
  { id := "so", name := "o".data, artists := ["z".data], duration := 999000, isrc := "IJ" }

/-- Target track matching `C6sa` (shared ISRC) and nothing else. -/
def C6Ta : TidalTrack :=
  { id := 1, name := "a".data, artists := ["y".data], duration := 100, isrc := "IA",
    available := true }

/-- Target track matching `C6so` by ISRC and `C6sf` by the composite
heuristic (duration within tolerance, name and artist contained). -/
def C6Tj : TidalTrack :=
  { id := 2, name := "fo".data, artists := ["x".data], duration := 5, isrc := "IJ",
    available := true }

/-- Target catalog resolving the two ids used in the scenario. -/
def C6cat : Int → TidalTrack := fun i => if i = 1 then C6Ta else C6Tj

/-- Remote search oracle: `C6sa`'s and `C6so`'s queries succeed, `C6sf`'s
returns nothing. -/
def C6oracle : List Char → List TidalTrack := fun q =>
  if q = "a y".data then [C6Ta] else if q = "o z".data then [C6Tj] else []

/-- The three-track source playlist of the C6 scenario. -/
def C6pd : PlaylistData :=
  { name := "P", description := "", tracks := [C6sf, C6sa, C6so],
    coverImage := none, images := [] }

/-- First reconciler run: starts from no target playlist and an empty
cache/ledger; creates "P" and adds ids [1, 2], recording a failure for
`C6sf`. -/
def C6run1 : List TidalPlaylist × SyncState × List SyncAction :=
  sync_playlist C6cat C6oracle 0 C6pd [] ⟨emptyCache, []⟩

/-- Second reconciler run, one day later, with totally unchanged source
and target state (it consumes run 1's outputs directly). -/
def C6run2 : List TidalPlaylist × SyncState × List SyncAction :=
  sync_playlist C6cat C6oracle 1 C6pd C6run1.1 C6run1.2.1

/-- Claim C6, counterexample.  Running the reconciler twice in
succession with unchanged source and target state can still issue
target-playlist writes on the second run: run 2's seeding re-pairs the
previously failed `C6sf` with the existing target track `C6Tj` (the
first pass never removed matched targets from the tidal pool and the
`track_matches` heuristic accepts the pair even though run 1's remote
search for `C6sf` found nothing), which moves id 2 to the front of the
desired list; the diff `[2, 1] ≠ [1, 2]` then triggers a clear and an
add. -/
theorem C6_counterexample :
    SyncAction.clearPlaylist "P" ∈ C6run2.2.2
      ∧ SyncAction.addTracks "P" [2, 1] ∈ C6run2.2.2
      ∧ C6run1.1 = [{ name := "P", tracks := [C6Ta, C6Tj] }] := by decide

/-- Claim C6, amended: a reconciler run issues no clear and no add
exactly as guarded by the Diffing state — in particular, whenever the
desired target-id list computed after Seeding and Resolving equals the
existing playlist's ordered id list, zero target-playlist writes are
issued.  Running twice in succession with unchanged state does *not*
guarantee this equality (see the counterexample: second-run seeding can
re-pair a previously failed source track with an existing target track
and reorder the desired list). -/
theorem C6_no_diff_no_writes (catalog : Int → TidalTrack)
    (oracle : List Char → List TidalTrack) (now : Int) (pd : PlaylistData)
    (env : List TidalPlaylist) (st : SyncState) (tp : TidalPlaylist)
    (hfind : env.find? (fun p => p.name == pd.name) = some tp)
    (hdiff : (get_tracks_for_new_tidal_playlist
        (sync_resolve_state oracle now st pd.tracks tp.tracks).cache pd.tracks).1
      = tp.tracks.map TidalTrack.id) :
    ∀ nm : String, ∀ ids : List Int,
      SyncAction.clearPlaylist nm ∉ (sync_playlist catalog oracle now pd env st).2.2
      ∧ SyncAction.addTracks nm ids ∉ (sync_playlist catalog oracle now pd env st).2.2 := by
  intro nm ids
  unfold sync_playlist
  by_cases hne : pd.tracks.isEmpty
  · simp [hne]
  · simp only [hne, if_false, hfind, Bool.false_eq_true, Option.map_some',
      Option.getD_some, Option.isNone_some, Bool.and_false]
    rw [if_pos hdiff]
    simp

/-- Witness for `C6_no_diff_no_writes`: a run whose desired list `[1]`
already equals the existing playlist `[C6Ta]`, issuing no clear/add. -/
theorem C6_witness :
    SyncAction.clearPlaylist "Q" ∉ (sync_playlist C6cat C6oracle 0
        { name := "P", description := "", tracks := [C6sa], coverImage := none, images := [] }
        [{ name := "P", tracks := [C6Ta] }] ⟨emptyCache, []⟩).2.2
    ∧ SyncAction.addTracks "Q" [5] ∉ (sync_playlist C6cat C6oracle 0
        { name := "P", description := "", tracks := [C6sa], coverImage := none, images := [] }
        [{ name := "P", tracks := [C6Ta] }] ⟨emptyCache, []⟩).2.2 :=
  C6_no_diff_no_writes C6cat C6oracle 0
    { name := "P", description := "", tracks := [C6sa], coverImage := none, images := [] }
    [{ name := "P", tracks := [C6Ta] }] ⟨emptyCache, []⟩ { name := "P", tracks := [C6Ta] }
    (by decide) (by decide) "Q" [5]

end SpotifyTidal
